import Mathlib

/-!
# Verification of the NEruSt-JG emulator core

Shallow embedding of the CPU (src/src/cpu.rs), the memory bus
(src/src/bus.rs) and the picture-processing-unit register shim
(src/src/ppu.rs), together with theorems settling the specification
claims about them.

Conventions of the embedding:
* Machine integers (`u8`, `u16`) are modelled as `Nat`; wrapping
  arithmetic is explicit (`% 256`, `% 65536`).
* Fixed-size Rust arrays are modelled as total functions `Nat → Nat`
  together with the array length; every access performs the bounds
  check the Rust runtime performs, so an out-of-bounds access — a
  panic in the source — is modelled as `none`.
* `panic!` and `todo!` sites in the source are likewise modelled by
  `Option`/result types returning `none` (or a `fault` constructor).
-/

/-- Addressing modes, from `enum AddressingMode` in src/src/cpu.rs. -/
inductive AddressingMode where
  | Immediate
  | ZeroPage
  | ZeroPage_X
  | ZeroPage_Y
  | Absolute
  | Absolute_X
  | Absolute_Y
  | Indirect_X
  | Indirect_Y
  | NoneAddressing

/-- CPU state, from `struct CPU` in src/src/cpu.rs.  The Rust field
`memory: [u8; 0xFFFF]` is an array of 0xFFFF (= 65535, not 65536) bytes;
it is modelled as the function `memory` together with the length
`MEMORY_LEN` checked at each access. -/
structure CPU where
  register_a : Nat
  register_x : Nat
  register_y : Nat
  status : Nat
  program_counter : Nat
  memory : Nat → Nat

/-- The length of the CPU memory array, exactly as written in the source
(`[0; 0xFFFF]`): 0xFFFF bytes, valid indices 0x0000..0xFFFE. -/
def MEMORY_LEN : Nat := 0xFFFF

/-- `CPU::new`. -/
def CPU.new : CPU :=
  { register_a := 0, register_x := 0, register_y := 0, status := 0,
    program_counter := 0, memory := fun _ => 0 }

/-- `CPU::mem_read`: `self.memory[addr as usize]`.  An index `≥ MEMORY_LEN`
is out of bounds and panics in Rust, modelled as `none`. -/
def CPU.mem_read (s : CPU) (addr : Nat) : Option Nat :=
  if addr < MEMORY_LEN then some (s.memory addr) else none

/-- `CPU::mem_write`: `self.memory[addr as usize] = value`. -/
def CPU.mem_write (s : CPU) (addr value : Nat) : Option CPU :=
  if addr < MEMORY_LEN then
    some { s with memory := fun a => if a = addr then value else s.memory a }
  else none

/-- `CPU::mem_read_u16`: little-endian word read (low byte first, as in
the source, so a fault on the low byte happens first). -/
def CPU.mem_read_u16 (s : CPU) (addr : Nat) : Option Nat := do
  let low ← s.mem_read addr
  let high ← s.mem_read (addr + 1)
  pure ((high <<< 8) ||| low)

/-- `CPU::mem_write_u16`: writes `value & 0xFF` at `addr` and
`value >> 8` at `addr + 1`. -/
def CPU.mem_write_u16 (s : CPU) (addr value : Nat) : Option CPU := do
  let s1 ← s.mem_write addr (value &&& 0xFF)
  s1.mem_write (addr + 1) (value >>> 8)

/-- `CPU::get_operand_address`.  The `NoneAddressing` arm panics in the
source (`panic!("mode ... is not supported")`), modelled as `none`;
`none` also propagates from any faulting memory read. -/
def CPU.get_operand_address (s : CPU) (mode : AddressingMode) : Option Nat :=
  match mode with
  | .Immediate => some s.program_counter
  | .ZeroPage => s.mem_read s.program_counter
  | .Absolute => s.mem_read_u16 s.program_counter
  | .ZeroPage_X => do
      let pos ← s.mem_read s.program_counter
      pure ((pos + s.register_x) % 256)
  | .ZeroPage_Y => do
      let pos ← s.mem_read s.program_counter
      pure ((pos + s.register_y) % 256)
  | .Absolute_X => do
      let base ← s.mem_read_u16 s.program_counter
      pure ((base + s.register_x) % 65536)
  | .Absolute_Y => do
      let base ← s.mem_read_u16 s.program_counter
      pure ((base + s.register_y) % 65536)
  | .Indirect_X => do
      let base ← s.mem_read s.program_counter
      let ptr := (base + s.register_x) % 256
      let lo ← s.mem_read ptr
      let hi ← s.mem_read ((ptr + 1) % 256)
      pure ((hi <<< 8) ||| lo)
  | .Indirect_Y => do
      let base ← s.mem_read s.program_counter
      let lo ← s.mem_read base
      let hi ← s.mem_read ((base + 1) % 256)
      pure ((((hi <<< 8) ||| lo) + s.register_y) % 65536)
  | .NoneAddressing => none

/-- `CPU::update_zero_and_negative_flags`, as a pure function on the
status byte: first the zero-flag conditional, then the negative-flag
conditional, exactly in source order. -/
def updateZeroNegative (status result : Nat) : Nat :=
  let s1 := if result = 0 then status ||| 0x02 else status &&& 0xFD
  if result &&& 0x80 ≠ 0 then s1 ||| 0x80 else s1 &&& 0x7F

/-- The same routine acting on the CPU state. -/
def CPU.update_zero_and_negative_flags (s : CPU) (result : Nat) : CPU :=
  { s with status := updateZeroNegative s.status result }

/-- `CPU::lda`. -/
def CPU.lda (s : CPU) (mode : AddressingMode) : Option CPU := do
  let addr ← s.get_operand_address mode
  let value ← s.mem_read addr
  pure (CPU.update_zero_and_negative_flags { s with register_a := value } value)

/-- `CPU::tax`. -/
def CPU.tax (s : CPU) : CPU :=
  CPU.update_zero_and_negative_flags { s with register_x := s.register_a } s.register_a

/-- `CPU::sta`. -/
def CPU.sta (s : CPU) (mode : AddressingMode) : Option CPU := do
  let addr ← s.get_operand_address mode
  s.mem_write addr s.register_a

/-- The INX body from the `0xE8` arm of `CPU::run`:
`register_x.wrapping_add(1)` then flag update. -/
def CPU.inx (s : CPU) : CPU :=
  let x := (s.register_x + 1) % 256
  CPU.update_zero_and_negative_flags { s with register_x := x } x

/-- `CPU::reset`: clears A, X and the status, then loads the program
counter from the reset vector at 0xFFFC (little-endian). -/
def CPU.reset (s : CPU) : Option CPU := do
  let pc ← s.mem_read_u16 0xFFFC
  pure { s with register_a := 0, register_x := 0, status := 0, program_counter := pc }

/-- `CPU::load`: `self.memory[0x8000..(0x8000 + program.len())]
.copy_from_slice(&program)` followed by `mem_write_u16(0xFFFC, 0x8000)`.
The slice operation panics when `0x8000 + program.len()` exceeds the
array length `MEMORY_LEN`, modelled by the guard. -/
def CPU.load (s : CPU) (program : List Nat) : Option CPU :=
  if 0x8000 + program.length ≤ MEMORY_LEN then
    CPU.mem_write_u16
      { s with memory := fun a =>
          if 0x8000 ≤ a ∧ a < 0x8000 + program.length then program.getD (a - 0x8000) 0
          else s.memory a }
      0xFFFC 0x8000
  else none

/-- Result of executing one iteration of the `CPU::run` loop. -/
inductive StepResult where
  | next (s : CPU)
  | halted (s : CPU)
  | fault

/-- Lifts an instruction result to a step result, adding the fixed
post-dispatch program-counter advance of the opcode. -/
def stepOf (r : Option CPU) (inc : Nat) : StepResult :=
  match r with
  | none => StepResult.fault
  | some s => StepResult.next { s with program_counter := s.program_counter + inc }

/-- The opcode dispatch of `CPU::run`, one loop iteration after the
opcode fetch.  The `_ => todo!()` arm of the source is `fault`. -/
def CPU.dispatch (s : CPU) (code : Nat) : StepResult :=
  if code = 0xA9 then stepOf (s.lda .Immediate) 1
  else if code = 0xA5 then stepOf (s.lda .ZeroPage) 1
  else if code = 0xB5 then stepOf (s.lda .ZeroPage_X) 1
  else if code = 0xAD then stepOf (s.lda .Absolute) 2
  else if code = 0xBD then stepOf (s.lda .Absolute_X) 2
  else if code = 0xB9 then stepOf (s.lda .Absolute_Y) 2
  else if code = 0xA1 then stepOf (s.lda .Indirect_X) 1
  else if code = 0xB1 then stepOf (s.lda .Indirect_Y) 1
  else if code = 0xAA then StepResult.next s.tax
  else if code = 0xE8 then StepResult.next s.inx
  else if code = 0x85 then stepOf (s.sta .ZeroPage) 1
  else if code = 0x95 then stepOf (s.sta .ZeroPage_X) 1
  else if code = 0x8D then stepOf (s.sta .Absolute) 2
  else if code = 0x9D then stepOf (s.sta .Absolute_X) 2
  else if code = 0x99 then stepOf (s.sta .Absolute_Y) 2
  else if code = 0x81 then stepOf (s.sta .Indirect_X) 1
  else if code = 0x91 then stepOf (s.sta .Indirect_Y) 1
  else if code = 0x00 then StepResult.halted s
  else StepResult.fault

/-- One iteration of `CPU::run`: fetch the opcode at the program
counter, advance the program counter by one, dispatch. -/
def CPU.step (s : CPU) : StepResult :=
  match s.mem_read s.program_counter with
  | none => StepResult.fault
  | some code => CPU.dispatch { s with program_counter := s.program_counter + 1 } code

/-- Result of a whole `CPU::run` call.  `halted` is produced only by the
`0x00` (BRK) arm, which is the only `return` of the source loop. -/
inductive RunResult where
  | halted (s : CPU)
  | fault
  | outOfFuel

/-- `CPU::run` as a fuel-indexed loop. -/
def CPU.run : Nat → CPU → RunResult
  | 0, _ => RunResult.outOfFuel
  | fuel + 1, s =>
    match s.step with
    | .halted c => RunResult.halted c
    | .fault => RunResult.fault
    | .next c => CPU.run fuel c

/-- `CPU::load_and_run`: load, reset, run. -/
def CPU.load_and_run (s : CPU) (program : List Nat) (fuel : Nat) : RunResult :=
  match s.load program with
  | none => RunResult.fault
  | some s1 =>
    match s1.reset with
    | none => RunResult.fault
    | some s2 => s2.run fuel

/-- Register X of the final state of a halted run. -/
def RunResult.finalX : RunResult → Option Nat
  | .halted s => some s.register_x
  | _ => none

/-- The opcodes to which `CPU::run` assigns a routine; every other
opcode falls into the `todo!()` arm. -/
def implementedOpcodes : List Nat :=
  [0xA9, 0xA5, 0xB5, 0xAD, 0xBD, 0xB9, 0xA1, 0xB1, 0xAA, 0xE8,
   0x85, 0x95, 0x8D, 0x9D, 0x99, 0x81, 0x91, 0x00]

/-- Bus state, from `struct Bus` in src/src/bus.rs: work RAM
(`cpu_vram: [u8; 2048]`) and program ROM (`prg_rom: [u8; 0x8000]`),
modelled as functions with explicit bounds checks at each access. -/
structure Bus where
  cpu_vram : Nat → Nat
  prg_rom : Nat → Nat

/-- `Bus::new`. -/
def Bus.new : Bus := { cpu_vram := fun _ => 0, prg_rom := fun _ => 0 }

/-- `Bus::mem_read` (the `Memory` impl).  Region decoding in source
order: RAM window `0x0000..=0x1FFF` masked with `0x07FF`; PPU window
`0x2000..=0x3FFF`, whose body is `todo!(...)` — a panic, modelled as
`none`; ROM window `0x8000..=0xFFFF` offset by `0x8000`; any other
address reads 0. -/
def Bus.mem_read (b : Bus) (addr : Nat) : Option Nat :=
  if addr ≤ 0x1FFF then
    if addr &&& 0x07FF < 2048 then some (b.cpu_vram (addr &&& 0x07FF)) else none
  else if addr ≤ 0x3FFF then none
  else if 0x8000 ≤ addr ∧ addr ≤ 0xFFFF then
    if addr - 0x8000 < 0x8000 then some (b.prg_rom (addr - 0x8000)) else none
  else some 0

/-- `Bus::mem_write`.  Same decoding; the RAM arm masks with
`0b11111111111` (= `0x07FF`); the unmapped arm discards the write. -/
def Bus.mem_write (b : Bus) (addr value : Nat) : Option Bus :=
  if addr ≤ 0x1FFF then
    if addr &&& 0x07FF < 2048 then
      some { b with cpu_vram := fun a =>
        if a = addr &&& 0x07FF then value else b.cpu_vram a }
    else none
  else if addr ≤ 0x3FFF then none
  else if 0x8000 ≤ addr ∧ addr ≤ 0xFFFF then
    if addr - 0x8000 < 0x8000 then
      some { b with prg_rom := fun a =>
        if a = addr - 0x8000 then value else b.prg_rom a }
    else none
  else some b

/-- Modelled from the spec: `src/src/ppu.rs` imports
`crate::cartridge::Mirroring`, but the cartridge module is not under
src/; the spec describes the cartridge collaborator as exposing "a
mirroring-mode tag (horizontal/vertical)". -/
inductive Mirroring where
  | Horizontal
  | Vertical

/-- `struct AddressRegister` in src/src/ppu.rs: `value: (u8, u8)`
(high byte, low byte) and the high/low toggle `hi_ptr`.  `hiByte` is
`value.0`, `loByte` is `value.1`. -/
structure AddressRegister where
  hiByte : Nat
  loByte : Nat
  hi_ptr : Bool

/-- `AddressRegister::new`. -/
def AddressRegister.new : AddressRegister :=
  { hiByte := 0, loByte := 0, hi_ptr := true }

/-- `AddressRegister::get`: `(value.0 as u16) << 8 | value.1 as u16`. -/
def AddressRegister.get (r : AddressRegister) : Nat :=
  (r.hiByte <<< 8) ||| r.loByte

/-- `AddressRegister::set`: high byte `value >> 8`, low byte
`value & 0xFF`. -/
def AddressRegister.set (r : AddressRegister) (value : Nat) : AddressRegister :=
  { r with hiByte := value >>> 8, loByte := value &&& 0xFF }

/-- `AddressRegister::update`: store `data` into the byte selected by
the toggle, mask the combined value to 14 bits when it exceeds 0x3FFF,
flip the toggle. -/
def AddressRegister.update (r : AddressRegister) (data : Nat) : AddressRegister :=
  let r1 := if r.hi_ptr then { r with hiByte := data } else { r with loByte := data }
  let r2 := if r1.get > 0x3FFF then r1.set (r1.get &&& 0x3FFF) else r1
  { r2 with hi_ptr := !r.hi_ptr }

/-- `AddressRegister::increment`: `value.1.wrapping_add(inc)`, carrying
into the high byte (with 8-bit wraparound) when the low byte wrapped
(`lo > self.value.1`, i.e. old low byte greater than new). -/
def AddressRegister.increment (r : AddressRegister) (inc : Nat) : AddressRegister :=
  let lo2 := (r.loByte + inc) % 256
  { r with
    hiByte := if lo2 < r.loByte then (r.hiByte + 1) % 256 else r.hiByte,
    loByte := lo2 }

/-- `AddressRegister::reset_latch`. -/
def AddressRegister.reset_latch (r : AddressRegister) : AddressRegister :=
  { r with hi_ptr := true }

/-- `ControlRegister::vram_addr_increment`: 1 when the
`VRAM_ADD_INCREMENT` bit (0b100) is not contained in the register, else
32.  The bitflags register is modelled as its `u8` bits; `contains`
is `bits &&& 0b100 = 0b100`. -/
def ControlRegister.vram_addr_increment (c : Nat) : Nat :=
  if ¬(c &&& 0x04 = 0x04) then 1 else 32

/-- `ControlRegister::update`: `from_bits_truncate(data)`; all eight
bits are named flags, so truncation keeps the low byte. -/
def ControlRegister.update (_c data : Nat) : Nat := data &&& 0xFF

/-- PPU state, from `struct PPU` in src/src/ppu.rs.  `chr_rom` is a
`Vec<u8>` of arbitrary length, so it stays a `List`; the fixed arrays
`pallete_table: [u8; 32]`, `vram: [u8; 2048]` and `oam: [u8; 256]` are
functions with bounds checks at each access. -/
structure PPU where
  chr_rom : List Nat
  pallete_table : Nat → Nat
  vram : Nat → Nat
  oam : Nat → Nat
  mirroring : Mirroring
  addr_reg : AddressRegister
  control_reg : Nat
  internal_data_buffer : Nat

/-- `PPU::new`. -/
def PPU.new (chr_rom : List Nat) (mirroring : Mirroring) : PPU :=
  { chr_rom := chr_rom, pallete_table := fun _ => 0, vram := fun _ => 0,
    oam := fun _ => 0, mirroring := mirroring, addr_reg := AddressRegister.new,
    control_reg := 0, internal_data_buffer := 0 }

/-- `PPU::mirror_vram_addr`.  The source matches on the pair
`(mirroring, name_table)` with arms `(Vertical, 2) | (Vertical, 3)`,
`(Horizontal, 2)`, `(Horizontal, 1)`, `(Horizontal, 3)` and a default;
written here as a match on the mirroring with the name-table tests as
conditionals, preserving the same case mapping. -/
def PPU.mirror_vram_addr (p : PPU) (addr : Nat) : Nat :=
  let mirrored_vram := addr &&& 0x2FFF
  let vram_index := mirrored_vram - 0x2000
  let name_table := vram_index / 0x400
  match p.mirroring with
  | Mirroring.Vertical =>
      if name_table = 2 ∨ name_table = 3 then vram_index - 0x800 else vram_index
  | Mirroring.Horizontal =>
      if name_table = 2 then vram_index - 0x400
      else if name_table = 1 then vram_index - 0x400
      else if name_table = 3 then vram_index - 0x800
      else vram_index

/-- `PPU::write_to_addr_reg`. -/
def PPU.write_to_addr_reg (p : PPU) (value : Nat) : PPU :=
  { p with addr_reg := p.addr_reg.update value }

/-- `PPU::write_to_control_reg`. -/
def PPU.write_to_control_reg (p : PPU) (value : Nat) : PPU :=
  { p with control_reg := ControlRegister.update p.control_reg value }

/-- `PPU::increment_vram_addr`. -/
def PPU.increment_vram_addr (p : PPU) : PPU :=
  { p with addr_reg :=
      p.addr_reg.increment (ControlRegister.vram_addr_increment p.control_reg) }

/-- `PPU::read_data`: reads the latched address, increments the latch
(before the dispatch, as in the source), then dispatches on the address.
Graphics-ROM and VRAM reads go through the internal buffer; palette
reads return directly.  Out-of-bounds indexing and the
`_ => panic!(...)` arm are `none`. -/
def PPU.read_data (p0 : PPU) : Option (Nat × PPU) :=
  let addr := p0.addr_reg.get
  let p := p0.increment_vram_addr
  if addr ≤ 0x1FFF then
    if addr < p.chr_rom.length then
      some (p.internal_data_buffer,
            { p with internal_data_buffer := p.chr_rom.getD addr 0 })
    else none
  else if addr ≤ 0x2FFF then
    if p.mirror_vram_addr addr < 2048 then
      some (p.internal_data_buffer,
            { p with internal_data_buffer := p.vram (p.mirror_vram_addr addr) })
    else none
  else if addr ≤ 0x3EFF then
    if p.mirror_vram_addr addr < 2048 then
      some (p.internal_data_buffer,
            { p with internal_data_buffer := p.vram (p.mirror_vram_addr addr) })
    else none
  else if addr ≤ 0x3FFF then
    if addr &&& 0x1F < 32 then some (p.pallete_table (addr &&& 0x1F), p) else none
  else none

/-- `PPU::write_to_data_reg`: dispatch on the latched address (the
`0x0000..=0x1FFF` arm panics — "attempt to write to PPU address"), then
increment the latch.  The palette-mirror arm
`0x3F10 | 0x3F14 | 0x3F18 | 0x3F1C` precedes the general palette arm,
as in the source. -/
def PPU.write_to_data_reg (p : PPU) (value : Nat) : Option PPU :=
  let addr := p.addr_reg.get
  let written : Option PPU :=
    if addr ≤ 0x1FFF then none
    else if addr ≤ 0x2FFF then
      if p.mirror_vram_addr addr < 2048 then
        some { p with vram := fun a =>
          if a = p.mirror_vram_addr addr then value else p.vram a }
      else none
    else if addr ≤ 0x3EFF then
      if p.mirror_vram_addr addr < 2048 then
        some { p with vram := fun a =>
          if a = p.mirror_vram_addr addr then value else p.vram a }
      else none
    else if addr = 0x3F10 ∨ addr = 0x3F14 ∨ addr = 0x3F18 ∨ addr = 0x3F1C then
      if (addr - 0x10) &&& 0x1F < 32 then
        some { p with pallete_table := fun a =>
          if a = (addr - 0x10) &&& 0x1F then value else p.pallete_table a }
      else none
    else if addr ≤ 0x3FFF then
      if addr &&& 0x1F < 32 then
        some { p with pallete_table := fun a =>
          if a = addr &&& 0x1F then value else p.pallete_table a }
      else none
    else none
  written.map PPU.increment_vram_addr

/-- Fresh CPU whose program counter sits at the last 16-bit address. -/
def cpuAtTop : CPU := { CPU.new with program_counter := 0xFFFF }

/-- Fresh CPU whose memory holds 0xFF (an unimplemented opcode)
everywhere. -/
def cpuAllFF : CPU := { CPU.new with memory := fun _ => 0xFF }

/-- Concrete CPU used to instantiate the addressing-mode theorem:
the operand byte at the program counter is 0xFF and X = 2. -/
def cpuC5 : CPU :=
  { register_a := 0, register_x := 2, register_y := 3, status := 0,
    program_counter := 0x200,
    memory := fun a =>
      if a = 0x200 then 0xFF else if a = 1 then 0x34 else if a = 2 then 0x12 else 0 }

/-- A program one byte longer than 0x7FFC: its tail collides with the
reset vector at 0xFFFC. -/
def progOverVector : List Nat := List.replicate 0x7FFD 1

/-- Fresh PPU with an empty graphics ROM (the repository's own test
helper builds a cartridge with zero CHR-ROM pages). -/
def ppuNoChr : PPU := PPU.new [] Mirroring.Vertical

/-- Fresh PPU used for the write-port witness. -/
def ppuFresh : PPU := PPU.new [] Mirroring.Horizontal

/-- Concrete PPU with a one-byte graphics ROM, latch at 0x0000. -/
def ppuChr : PPU := PPU.new [7] Mirroring.Vertical

/-! ## Helper lemmas -/

/-- Combining a high byte and a low byte (`lo < 256`) with shift-or is
base-256 positional composition. -/
theorem or_shift8 (hi lo : Nat) (h : lo < 256) : (hi <<< 8) ||| lo = 256 * hi + lo := by
  have h' : lo < 2 ^ 8 := by norm_num at *; omega
  calc (hi <<< 8) ||| lo = 2 ^ 8 * hi ||| lo := by rw [Nat.shiftLeft_eq, Nat.mul_comm]
    _ = 2 ^ 8 * hi + lo := (Nat.mul_add_lt_is_or h' hi).symm
    _ = 256 * hi + lo := by norm_num

/-- Masking with 0xFF is reduction modulo 256. -/
theorem and255_eq_mod (x : Nat) : x &&& 0xFF = x % 256 := by
  have h := Nat.and_pow_two_sub_one_eq_mod x 8
  norm_num at h
  exact h

/-- Shifting right by 8 is division by 256. -/
theorem shr8_eq_div (x : Nat) : x >>> 8 = x / 256 := by
  have h := Nat.shiftRight_eq_div_pow x 8
  norm_num at h
  exact h

/-- Bits at or above position 8 of a byte are clear. -/
theorem testBit_high {x i : Nat} (h : x < 256) (hi8 : 8 ≤ i) : x.testBit i = false := by
  refine Nat.testBit_lt_two_pow (lt_of_lt_of_le h ?_)
  calc (256 : Nat) = 2 ^ 8 := by norm_num
    _ ≤ 2 ^ i := Nat.pow_le_pow_right (by norm_num) hi8

/-- The low bits of the flag-mask constants, computed once. -/
theorem testBit_const_02 : ∀ i < 8, Nat.testBit 0x02 i = decide (i = 1) := by decide

theorem testBit_const_FD : ∀ i < 8, Nat.testBit 0xFD i = decide (i ≠ 1) := by decide

theorem testBit_const_80 : ∀ i < 8, Nat.testBit 0x80 i = decide (i = 7) := by decide

theorem testBit_const_7F : ∀ i < 8, Nat.testBit 0x7F i = decide (i ≠ 7) := by decide

/-- `result & 0x80 ≠ 0` tests exactly bit 7. -/
theorem and80_ne_zero_iff (r : Nat) : r &&& 0x80 ≠ 0 ↔ r.testBit 7 = true := by
  have h := Nat.and_two_pow r 7
  norm_num at h
  rw [h]
  cases hb : r.testBit 7 <;> simp

/-- `AddressRegister::get` after `AddressRegister::set` recovers the
value (set splits into `v / 256` and `v % 256`). -/
theorem get_set (r : AddressRegister) (v : Nat) : (r.set v).get = v := by
  show ((v >>> 8) <<< 8) ||| (v &&& 0xFF) = v
  rw [and255_eq_mod, shr8_eq_div, or_shift8 _ _ (Nat.mod_lt _ (by norm_num))]
  omega

/-- `AddressRegister::increment` adds the step to the combined value
modulo 2^16, provided the bytes are in range. -/
theorem increment_get (r : AddressRegister) (inc : Nat)
    (hh : r.hiByte < 256) (hl : r.loByte < 256) (hinc : inc < 256) :
    (r.increment inc).get = (r.get + inc) % 65536 := by
  show ((if (r.loByte + inc) % 256 < r.loByte then (r.hiByte + 1) % 256 else r.hiByte) <<< 8)
        ||| ((r.loByte + inc) % 256) = (((r.hiByte <<< 8) ||| r.loByte) + inc) % 65536
  rw [or_shift8 _ _ hl, or_shift8 _ _ (Nat.mod_lt _ (by norm_num))]
  split <;> omega

/-- The VRAM increment step is a byte (1 or 32). -/
theorem vram_step_lt (c : Nat) : ControlRegister.vram_addr_increment c < 256 := by
  unfold ControlRegister.vram_addr_increment
  split <;> norm_num

/-- The name-table translation lands inside the 2 KiB VRAM for every
address of the VRAM window. -/
theorem mirror_vram_addr_lt (p : PPU) (addr : Nat) :
    p.mirror_vram_addr addr < 2048 := by
  unfold PPU.mirror_vram_addr
  have hm : addr &&& 0x2FFF ≤ 0x2FFF := Nat.and_le_right
  cases p.mirroring <;> dsimp only <;> split_ifs <;> omega

/-! ## Claim theorems -/

/-- C1: the claim says every 16-bit address can be read and written
through both the CPU's and the bus's memory interface without a fault.
The code violates this: the CPU memory array holds only 0xFFFF bytes,
so the access at address 0xFFFF is out of bounds (a Rust panic), and
the bus's PPU window 0x2000..=0x3FFF is `todo!()` (also a panic).  This
theorem evaluates the embedded code at those failing inputs. -/
theorem C1_mem_access_faults :
    CPU.new.mem_read 0xFFFF = none ∧
    CPU.new.mem_write 0xFFFF 0 = none ∧
    Bus.new.mem_read 0x2000 = none ∧
    Bus.new.mem_write 0x2000 0 = none ∧
    Bus.new.mem_read 0x4000 = some 0 := by
  refine ⟨rfl, rfl, rfl, rfl, rfl⟩

/-- C2: the claim says the CPU's memory interface goes through the
bus's region decoding, so a byte written at 0x0000 reads back at the
RAM mirror 0x0800.  The code violates this: `CPU` owns a private flat
array and never consults the bus.  Writing 0x55 at 0x0000 through the
CPU interface and reading 0x0800 yields 0, while the same traffic
through the bus yields 0x55. -/
theorem C2_cpu_not_bus_mediated :
    (CPU.new.mem_write 0x0000 0x55).bind (fun c => c.mem_read 0x0800) = some 0 ∧
    (Bus.new.mem_write 0x0000 0x55).bind (fun b => b.mem_read 0x0800) = some 0x55 := by
  exact ⟨rfl, rfl⟩

/-- C6: loading `[0xA9, 0xFF, 0xAA, 0xE8, 0xE8, 0x00]` into a fresh
CPU, resetting and running halts at the BRK opcode (the only source of
`RunResult.halted`) with X = 1, the two increments wrapping
0xFF → 0x00 → 0x01. -/
theorem C6_wraparound_scenario :
    (CPU.new.load_and_run [0xA9, 0xFF, 0xAA, 0xE8, 0xE8, 0x00] 10).finalX = some 1 := by
  decide

/-- C4: for every 8-bit result and prior status byte,
`update_zero_and_negative_flags` sets the zero bit (bit 1) iff the
result is 0, sets the negative bit (bit 7) iff bit 7 of the result is
set, and leaves every other status bit unchanged. -/
theorem C4_update_zero_and_negative_flags (status result : Nat)
    (hs : status < 256) (hr : result < 256) :
    ((updateZeroNegative status result).testBit 1 = decide (result = 0)) ∧
    ((updateZeroNegative status result).testBit 7 = result.testBit 7) ∧
    (∀ i, i ≠ 1 → i ≠ 7 →
      (updateZeroNegative status result).testBit i = status.testBit i) := by
  have h02lt : (0x02 : Nat) < 256 := by norm_num
  have hFDlt : (0xFD : Nat) < 256 := by norm_num
  have h80lt : (0x80 : Nat) < 256 := by norm_num
  have h7Flt : (0x7F : Nat) < 256 := by norm_num
  have hrlt : result < 256 := hr
  clear hr
  simp only [updateZeroNegative]
  by_cases hz : result = 0
  all_goals by_cases hn : result &&& 0x80 ≠ 0
  · exfalso; apply hn; subst hz; decide
  · rw [if_neg hn, if_pos hz]
    have hb : result.testBit 7 = false := by
      cases h7 : result.testBit 7
      · rfl
      · exact absurd ((and80_ne_zero_iff result).mpr h7) hn
    refine ⟨?_, ?_, ?_⟩
    · rw [Nat.testBit_and, Nat.testBit_or]
      simp [hz, show Nat.testBit 0x02 1 = true from by decide,
        show Nat.testBit 0x7F 1 = true from by decide]
    · rw [Nat.testBit_and]
      simp [hb, show Nat.testBit 0x7F 7 = false from by decide]
    · intro i h1 h7
      rcases Nat.lt_or_ge i 8 with hlt | hge
      · rw [Nat.testBit_and, Nat.testBit_or, testBit_const_02 i hlt,
          testBit_const_7F i hlt]
        simp [h1, h7]
      · rw [Nat.testBit_and, Nat.testBit_or, testBit_high hs hge,
          testBit_high h02lt hge, testBit_high h7Flt hge]
        decide
  · rw [if_pos hn, if_neg hz]
    have hb : result.testBit 7 = true := (and80_ne_zero_iff result).mp hn
    refine ⟨?_, ?_, ?_⟩
    · rw [Nat.testBit_or, Nat.testBit_and]
      simp [hz, show Nat.testBit 0xFD 1 = false from by decide,
        show Nat.testBit 0x80 1 = false from by decide]
    · rw [Nat.testBit_or]
      simp [hb, show Nat.testBit 0x80 7 = true from by decide]
    · intro i h1 h7
      rcases Nat.lt_or_ge i 8 with hlt | hge
      · rw [Nat.testBit_or, Nat.testBit_and, testBit_const_FD i hlt,
          testBit_const_80 i hlt]
        simp [h1, h7]
      · rw [Nat.testBit_or, Nat.testBit_and, testBit_high hs hge,
          testBit_high hFDlt hge, testBit_high h80lt hge]
        decide
  · rw [if_neg hn, if_neg hz]
    have hb : result.testBit 7 = false := by
      cases h7 : result.testBit 7
      · rfl
      · exact absurd ((and80_ne_zero_iff result).mpr h7) hn
    refine ⟨?_, ?_, ?_⟩
    · rw [Nat.testBit_and, Nat.testBit_and]
      simp [hz, show Nat.testBit 0xFD 1 = false from by decide,
        show Nat.testBit 0x7F 1 = true from by decide]
    · rw [Nat.testBit_and, Nat.testBit_and]
      simp [hb, show Nat.testBit 0x7F 7 = false from by decide]
    · intro i h1 h7
      rcases Nat.lt_or_ge i 8 with hlt | hge
      · rw [Nat.testBit_and, Nat.testBit_and, testBit_const_FD i hlt,
          testBit_const_7F i hlt]
        simp [h1, h7]
      · rw [Nat.testBit_and, Nat.testBit_and, testBit_high hs hge,
          testBit_high hFDlt hge, testBit_high h7Flt hge]
        decide

/-- Witness for C4 at status 0x45, result 0x80: zero flag clear,
negative flag set, unrelated bit 3 preserved. -/
theorem C4_witness :
    ((updateZeroNegative 0x45 0x80).testBit 1 = decide ((0x80 : Nat) = 0)) ∧
    ((updateZeroNegative 0x45 0x80).testBit 7 = (0x80 : Nat).testBit 7) ∧
    ((updateZeroNegative 0x45 0x80).testBit 3 = (0x45 : Nat).testBit 3) := by
  have h := C4_update_zero_and_negative_flags 0x45 0x80 (by norm_num) (by norm_num)
  exact ⟨h.1, h.2.1, h.2.2 3 (by decide) (by decide)⟩

/-- C5 counterexample: the claim quantifies over every program counter,
but with the program counter at 0xFFFF the operand fetch indexes past
the end of the 0xFFFF-byte memory array, so `get_operand_address`
panics (= `none`) instead of returning the wrapped zero-page address. -/
theorem C5_counterexample :
    cpuAtTop.get_operand_address AddressingMode.ZeroPage_X = none := rfl

/-- C5 (amended): for every CPU state whose program counter is below
0xFFFF (the memory array length) and whose memory holds bytes,
`ZeroPage_X`/`ZeroPage_Y` resolve to the operand byte plus X (resp. Y)
with 8-bit wraparound — a page-zero address, never crossing into page
1 — and `Indirect_X` adds X to the pointer byte with 8-bit wraparound
and reads the little-endian word from page zero, the second pointer
byte wrapping within page zero. -/
theorem C5_indexed_addressing (s : CPU)
    (hpc : s.program_counter < 0xFFFF) (hmem : ∀ a, s.memory a < 256) :
    s.get_operand_address .ZeroPage_X =
      some ((s.memory s.program_counter + s.register_x) % 256) ∧
    s.get_operand_address .ZeroPage_Y =
      some ((s.memory s.program_counter + s.register_y) % 256) ∧
    (s.memory s.program_counter + s.register_x) % 256 < 256 ∧
    s.get_operand_address .Indirect_X =
      some (256 * s.memory
              (((s.memory s.program_counter + s.register_x) % 256 + 1) % 256)
            + s.memory ((s.memory s.program_counter + s.register_x) % 256)) := by
  have hr : s.mem_read s.program_counter = some (s.memory s.program_counter) := by
    unfold CPU.mem_read
    rw [if_pos]
    exact hpc
  have hzp : ∀ y : Nat, s.mem_read (y % 256) = some (s.memory (y % 256)) := by
    intro y
    unfold CPU.mem_read
    rw [if_pos]
    have : y % 256 < 256 := Nat.mod_lt _ (by norm_num)
    show y % 256 < MEMORY_LEN
    unfold MEMORY_LEN
    omega
  refine ⟨?_, ?_, Nat.mod_lt _ (by norm_num), ?_⟩
  · simp [CPU.get_operand_address, hr]
  · simp [CPU.get_operand_address, hr]
  · simp only [CPU.get_operand_address, hr, hzp, Option.bind_eq_bind,
      Option.some_bind, Option.pure_def]
    rw [or_shift8 _ _ (hmem _)]

/-- Witness for C5: operand byte 0xFF with X = 2 resolves to 0x0001
(zero-page wraparound); the same pointer arithmetic sends `Indirect_X`
through page-zero cells 1 and 2, giving the little-endian word 0x1234. -/
theorem C5_witness :
    cpuC5.get_operand_address AddressingMode.ZeroPage_X = some 0x0001 ∧
    cpuC5.get_operand_address AddressingMode.Indirect_X = some 0x1234 := by
  have hmem : ∀ a, cpuC5.memory a < 256 := by
    intro a
    show (if a = 0x200 then (0xFF : Nat)
          else if a = 1 then 0x34 else if a = 2 then 0x12 else 0) < 256
    split_ifs <;> norm_num
  have h := C5_indexed_addressing cpuC5 (by decide) hmem
  exact ⟨h.1, h.2.2.2⟩

/-- C3 counterexample: a program of length 0x7FFD (within the claimed
32 KiB ROM capacity) does not read back exactly — the reset-vector
write at 0xFFFC overwrites the program byte at index 0x7FFC, so the
read-back yields 0 where the program holds 1. -/
theorem C3_counterexample :
    (CPU.new.load progOverVector).bind (fun c => c.mem_read (0x8000 + 0x7FFC)) = some 0 ∧
    progOverVector.getD 0x7FFC 0 = 1 := by
  constructor
  · have hlen : progOverVector.length = 0x7FFD := by
      unfold progOverVector
      exact List.length_replicate 0x7FFD 1
    have hguard : 0x8000 + progOverVector.length ≤ MEMORY_LEN := by
      rw [hlen]
      decide
    unfold CPU.load
    rw [if_pos hguard]
    decide
  · unfold progOverVector
    rw [List.getD_eq_getElem?_getD, List.getElem?_replicate_of_lt (by norm_num)]
    rfl

/-- Evaluates a memory read after `CPU::load`: the two reset-vector
bytes shadow everything, then the copied program window, then the
pre-existing memory. -/
theorem load_memory_eval (s : CPU) (prog : List Nat) (a : Nat)
    (hguard : 0x8000 + prog.length ≤ 0xFFFF) (ha : a < 0xFFFF) :
    (s.load prog).bind (fun c => c.mem_read a) =
      some (if a = 0xFFFD then 0x80 else if a = 0xFFFC then 0x00 else
            if 0x8000 ≤ a ∧ a < 0x8000 + prog.length then prog.getD (a - 0x8000) 0
            else s.memory a) := by
  unfold CPU.load
  rw [if_pos (show 0x8000 + prog.length ≤ MEMORY_LEN from hguard)]
  simp only [CPU.mem_write_u16, CPU.mem_write, CPU.mem_read, MEMORY_LEN,
    Option.bind_eq_bind, Option.some_bind]
  norm_num
  have h1 : (0x8000 : Nat) >>> 8 = 0x80 := by decide
  have h2 : (0x8000 : Nat) &&& 0xFF = 0x00 := by decide
  refine ⟨ha, ?_⟩
  rw [h1, h2]

/-- C3 (amended): on a fresh CPU, `load` copies the program into the
ROM window at 0x8000 and writes 0x8000 little-endian to the reset
vector at 0xFFFC; for every program of length at most 0x7FFC — not the
full 32 KiB ROM capacity, because the reset-vector write occupies
0xFFFC/0xFFFD and the memory array holds only 0xFFFF bytes — the
read-back reproduces the program exactly, and one byte past the loaded
length reads 0. -/
theorem C3_load_round_trip (prog : List Nat) (i : Nat)
    (hlen : prog.length ≤ 0x7FFC) (hi : i < prog.length) :
    (CPU.new.load prog).bind (fun c => c.mem_read (0x8000 + i)) = some (prog.getD i 0) ∧
    (CPU.new.load prog).bind (fun c => c.mem_read (0x8000 + prog.length)) = some 0 ∧
    (CPU.new.load prog).bind (fun c => c.mem_read 0xFFFC) = some 0x00 ∧
    (CPU.new.load prog).bind (fun c => c.mem_read 0xFFFD) = some 0x80 := by
  have hguard : 0x8000 + prog.length ≤ 0xFFFF := by omega
  refine ⟨?_, ?_, ?_, ?_⟩
  · rw [load_memory_eval CPU.new prog (0x8000 + i) hguard (by omega)]
    have c1 : ¬(0x8000 + i = 0xFFFD) := by omega
    have c2 : ¬(0x8000 + i = 0xFFFC) := by omega
    have c3 : 0x8000 ≤ 0x8000 + i ∧ 0x8000 + i < 0x8000 + prog.length := by omega
    rw [if_neg c1]
    rw [if_neg c2]
    rw [if_pos c3]
    have c4 : 0x8000 + i - 0x8000 = i := by omega
    rw [c4]
  · rw [load_memory_eval CPU.new prog (0x8000 + prog.length) hguard (by omega)]
    by_cases hc : prog.length = 0x7FFC
    · rw [if_neg (by omega), if_pos (by omega)]
    · rw [if_neg (by omega), if_neg (by omega), if_neg (by omega)]
      rfl
  · rw [load_memory_eval CPU.new prog 0xFFFC hguard (by norm_num)]
    rw [if_neg (by norm_num), if_pos rfl]
  · rw [load_memory_eval CPU.new prog 0xFFFD hguard (by norm_num)]
    rw [if_pos rfl]

/-- Witness for C3 (amended) with the two-byte program [0xA9, 0x05]:
byte 1 reads back as 0x05, one past the end reads 0, and the reset
vector holds 0x00/0x80. -/
theorem C3_witness :
    (CPU.new.load [0xA9, 0x05]).bind (fun c => c.mem_read (0x8000 + 1)) = some 0x05 ∧
    (CPU.new.load [0xA9, 0x05]).bind (fun c => c.mem_read (0x8000 + 2)) = some 0 ∧
    (CPU.new.load [0xA9, 0x05]).bind (fun c => c.mem_read 0xFFFC) = some 0x00 ∧
    (CPU.new.load [0xA9, 0x05]).bind (fun c => c.mem_read 0xFFFD) = some 0x80 := by
  have h := C3_load_round_trip [0xA9, 0x05] 1 (by norm_num) (by norm_num)
  exact ⟨h.1, h.2.1, h.2.2.1, h.2.2.2⟩

/-- C7: bus reads and writes in 0x0000..0x1FFF index work RAM at the
address masked to 11 bits, so a write is read back through every
address agreeing in the low 11 bits (the four-way mirror). -/
theorem C7_ram_mirroring (b : Bus) (a a2 v : Nat)
    (ha : a ≤ 0x1FFF) (ha2 : a2 ≤ 0x1FFF)
    (hagree : a &&& 0x07FF = a2 &&& 0x07FF) :
    (b.mem_write a v).bind (fun b2 => b2.mem_read a2) = some v ∧
    b.mem_read a = some (b.cpu_vram (a &&& 0x07FF)) := by
  have hm : a &&& 0x07FF < 2048 := lt_of_le_of_lt Nat.and_le_right (by norm_num)
  have hm2 : a2 &&& 0x07FF < 2048 := lt_of_le_of_lt Nat.and_le_right (by norm_num)
  constructor
  · unfold Bus.mem_write Bus.mem_read
    rw [if_pos ha, if_pos hm]
    simp only [Option.some_bind]
    rw [if_pos ha2, if_pos hm2]
    rw [hagree]
    simp
  · unfold Bus.mem_read
    rw [if_pos ha, if_pos hm]

/-- Witness for C7: a byte written at 0x0000 reads back at 0x0800,
0x1000 and 0x1800; a byte written at 0x07FF reads back at 0x1FFF. -/
theorem C7_witness :
    (Bus.new.mem_write 0x0000 0xAB).bind (fun b2 => b2.mem_read 0x0800) = some 0xAB ∧
    (Bus.new.mem_write 0x0000 0xAB).bind (fun b2 => b2.mem_read 0x1000) = some 0xAB ∧
    (Bus.new.mem_write 0x0000 0xAB).bind (fun b2 => b2.mem_read 0x1800) = some 0xAB ∧
    (Bus.new.mem_write 0x07FF 0xCD).bind (fun b2 => b2.mem_read 0x1FFF) = some 0xCD := by
  refine ⟨?_, ?_, ?_, ?_⟩
  · exact (C7_ram_mirroring Bus.new 0x0000 0x0800 0xAB (by norm_num) (by norm_num) (by decide)).1
  · exact (C7_ram_mirroring Bus.new 0x0000 0x1000 0xAB (by norm_num) (by norm_num) (by decide)).1
  · exact (C7_ram_mirroring Bus.new 0x0000 0x1800 0xAB (by norm_num) (by norm_num) (by decide)).1
  · exact (C7_ram_mirroring Bus.new 0x07FF 0x1FFF 0xCD (by norm_num) (by norm_num) (by decide)).1

/-- C8: each fatal programmer-error condition aborts rather than being
absorbed: the resolver rejects `NoneAddressing` (a `panic!` in the
source, `none` here); an opcode outside the implemented set makes the
run loop fault (`todo!()` in the source); and a data-port write while
the latch addresses graphics ROM 0x0000..0x1FFF faults (`panic!`).
The diagnostic text of the panics is outside the embedding. -/
theorem C8_fatal_conditions (s : CPU) (code : Nat) (p : PPU) (v : Nat)
    (hcode : s.mem_read s.program_counter = some code)
    (hni : code ∉ implementedOpcodes)
    (haddr : p.addr_reg.get ≤ 0x1FFF) :
    s.get_operand_address .NoneAddressing = none ∧
    s.step = StepResult.fault ∧
    p.write_to_data_reg v = none := by
  refine ⟨rfl, ?_, ?_⟩
  · unfold CPU.step
    rw [hcode]
    show CPU.dispatch { s with program_counter := s.program_counter + 1 } code =
      StepResult.fault
    simp only [implementedOpcodes, List.mem_cons, List.not_mem_nil, or_false] at hni
    push_neg at hni
    obtain ⟨h1, h2, h3, h4, h5, h6, h7, h8, h9, h10,
      h11, h12, h13, h14, h15, h16, h17, h18⟩ := hni
    unfold CPU.dispatch
    rw [if_neg h1, if_neg h2, if_neg h3, if_neg h4, if_neg h5, if_neg h6,
      if_neg h7, if_neg h8, if_neg h9, if_neg h10, if_neg h11, if_neg h12,
      if_neg h13, if_neg h14, if_neg h15, if_neg h16, if_neg h17, if_neg h18]
  · simp only [PPU.write_to_data_reg]
    rw [if_pos haddr]
    rfl

/-- Witness for C8: a CPU whose whole memory holds the unimplemented
opcode 0xFF faults on the first step, and a fresh PPU (latch 0x0000)
rejects a data-port write. -/
theorem C8_witness :
    cpuAllFF.step = StepResult.fault ∧
    ppuFresh.write_to_data_reg 5 = none ∧
    cpuAllFF.get_operand_address AddressingMode.NoneAddressing = none := by
  have h := C8_fatal_conditions cpuAllFF 0xFF ppuFresh 5 rfl (by decide) (by decide)
  exact ⟨h.2.1, h.2.2, h.1⟩

/-- Overriding only the toggle leaves the combined value unchanged. -/
theorem get_hi_ptr_override (x : AddressRegister) (b : Bool) :
    ({ x with hi_ptr := b } : AddressRegister).get = x.get := rfl

/-- After any `AddressRegister::update` the combined value is at most
0x3FFF: either the mask branch ran, or its condition already failed. -/
theorem update_get_le (r : AddressRegister) (d : Nat) : (r.update d).get ≤ 0x3FFF := by
  simp only [AddressRegister.update, get_hi_ptr_override]
  split_ifs with h1 h2 h3
  · rw [get_set]
    exact Nat.and_le_right
  · omega
  · rw [get_set]
    exact Nat.and_le_right
  · omega

/-- C9: the latch starts expecting the high byte; each write stores
into the toggled half, masks the combined value to 14 bits when it
exceeds 0x3FFF, and flips the toggle.  From any state expecting the
high byte, writing 0x20 then 0x00 latches exactly 0x2000 and the third
write targets the high byte again; no write leaves a value above
0x3FFF. -/
theorem C9_address_latch (r : AddressRegister) (d : Nat)
    (_hh : r.hiByte < 256) (hl : r.loByte < 256) (_hd : d < 256) :
    (r.update d).get ≤ 0x3FFF ∧
    (r.update d).hi_ptr = !r.hi_ptr ∧
    (r.hi_ptr = true →
      ((r.update 0x20).update 0x00).get = 0x2000 ∧
      ((r.update 0x20).update 0x00).hi_ptr = true) := by
  refine ⟨update_get_le r d, rfl, ?_⟩
  intro hp
  have h1 : r.update 0x20 = { hiByte := 0x20, loByte := r.loByte, hi_ptr := false } := by
    have hc : ¬(({ hiByte := 0x20, loByte := r.loByte, hi_ptr := true } :
        AddressRegister).get > 0x3FFF) := by
      show ¬((0x20 <<< 8) ||| r.loByte > 0x3FFF)
      rw [or_shift8 _ _ hl]
      omega
    simp only [AddressRegister.update, hp, if_true, Bool.not_true]
    rw [if_neg hc]
  have h2 : ({ hiByte := 0x20, loByte := r.loByte, hi_ptr := false } :
      AddressRegister).update 0x00
      = { hiByte := 0x20, loByte := 0x00, hi_ptr := true } := by
    have hc : ¬(({ hiByte := 0x20, loByte := 0x00, hi_ptr := false } :
        AddressRegister).get > 0x3FFF) := by
      show ¬((0x20 <<< 8) ||| 0x00 > 0x3FFF)
      rw [or_shift8 _ _ (by norm_num)]
      omega
    simp only [AddressRegister.update, Bool.not_false]
    rw [if_neg (show ¬(({ hiByte := 0x20, loByte := r.loByte, hi_ptr := false } :
      AddressRegister).hi_ptr = true) from by simp)]
    rw [if_neg hc]
  rw [h1, h2]
  exact ⟨by decide, rfl⟩

/-- Witness for C9 from the fresh latch: writes of 0x20 then 0x00
latch 0x2000, the toggle returns to expecting the high byte, and the
first write stays within 14 bits while flipping the toggle. -/
theorem C9_witness :
    ((AddressRegister.new.update 0x20).update 0x00).get = 0x2000 ∧
    ((AddressRegister.new.update 0x20).update 0x00).hi_ptr = true ∧
    (AddressRegister.new.update 0x20).get ≤ 0x3FFF ∧
    (AddressRegister.new.update 0x20).hi_ptr = !AddressRegister.new.hi_ptr := by
  have h := C9_address_latch AddressRegister.new 0x20 (by decide) (by decide) (by decide)
  exact ⟨(h.2.2 rfl).1, (h.2.2 rfl).2, h.1, h.2.1⟩

/-- Incrementing the latch leaves every other PPU field unchanged. -/
theorem increment_chr (p : PPU) : (p.increment_vram_addr).chr_rom = p.chr_rom := rfl

theorem increment_buffer (p : PPU) :
    (p.increment_vram_addr).internal_data_buffer = p.internal_data_buffer := rfl

theorem increment_vram (p : PPU) : (p.increment_vram_addr).vram = p.vram := rfl

theorem increment_palette (p : PPU) :
    (p.increment_vram_addr).pallete_table = p.pallete_table := rfl

theorem mirror_increment (p : PPU) (a : Nat) :
    (p.increment_vram_addr).mirror_vram_addr a = p.mirror_vram_addr a := rfl

/-- The latch advance of a data-port access, as addition modulo 2^16. -/
theorem increment_addr_get (p : PPU)
    (hh : p.addr_reg.hiByte < 256) (hl : p.addr_reg.loByte < 256) :
    (p.increment_vram_addr).addr_reg.get =
      (p.addr_reg.get + ControlRegister.vram_addr_increment p.control_reg) % 65536 :=
  increment_get p.addr_reg (ControlRegister.vram_addr_increment p.control_reg)
    hh hl (vram_step_lt p.control_reg)

/-- C10 counterexample: the claim quantifies over every PPU state, but
on a PPU whose graphics ROM is empty (the repository's own test ROM
builder produces zero CHR-ROM pages) a data-port read at latched
address 0x0000 indexes past the end of `chr_rom` and panics
(= `none`) instead of returning the buffer. -/
theorem C10_counterexample : ppuNoChr.read_data = none := rfl

/-- C10 (amended): every data-port access advances the latch by the
control-selected step (1 with the increment bit clear, 32 with it
set); a read with the latch in 0x0000..0x1FFF returns the previous
buffer and refreshes it from graphics ROM provided the address is
within the ROM's length (otherwise the indexing panics); a read in
0x2000..0x3EFF returns the buffer and refreshes it from mirrored VRAM;
a read in 0x3F00..0x3FFF returns the palette entry directly, leaving
the buffer untouched. -/
theorem C10_data_port (p : PPU) (v : Nat)
    (hh : p.addr_reg.hiByte < 256) (hl : p.addr_reg.loByte < 256) :
    ControlRegister.vram_addr_increment p.control_reg
      = (if p.control_reg.testBit 2 then 32 else 1) ∧
    (p.addr_reg.get ≤ 0x1FFF → p.addr_reg.get < p.chr_rom.length →
      (p.read_data).map Prod.fst = some p.internal_data_buffer ∧
      (p.read_data).map (fun q => q.2.internal_data_buffer)
        = some (p.chr_rom.getD p.addr_reg.get 0) ∧
      (p.read_data).map (fun q => q.2.addr_reg.get)
        = some ((p.addr_reg.get +
            ControlRegister.vram_addr_increment p.control_reg) % 65536)) ∧
    (0x2000 ≤ p.addr_reg.get → p.addr_reg.get ≤ 0x3EFF →
      (p.read_data).map Prod.fst = some p.internal_data_buffer ∧
      (p.read_data).map (fun q => q.2.internal_data_buffer)
        = some (p.vram (p.mirror_vram_addr p.addr_reg.get)) ∧
      (p.read_data).map (fun q => q.2.addr_reg.get)
        = some ((p.addr_reg.get +
            ControlRegister.vram_addr_increment p.control_reg) % 65536)) ∧
    (0x3F00 ≤ p.addr_reg.get → p.addr_reg.get ≤ 0x3FFF →
      (p.read_data).map Prod.fst
        = some (p.pallete_table (p.addr_reg.get &&& 0x1F)) ∧
      (p.read_data).map (fun q => q.2.internal_data_buffer)
        = some p.internal_data_buffer ∧
      (p.read_data).map (fun q => q.2.addr_reg.get)
        = some ((p.addr_reg.get +
            ControlRegister.vram_addr_increment p.control_reg) % 65536)) ∧
    (0x2000 ≤ p.addr_reg.get → p.addr_reg.get ≤ 0x3FFF →
      (p.write_to_data_reg v).map (fun q => q.addr_reg.get)
        = some ((p.addr_reg.get +
            ControlRegister.vram_addr_increment p.control_reg) % 65536)) := by
  have hadv := increment_addr_get p hh hl
  refine ⟨?_, ?_, ?_, ?_, ?_⟩
  · have h4 := Nat.and_two_pow p.control_reg 2
    norm_num at h4
    unfold ControlRegister.vram_addr_increment
    cases hb : p.control_reg.testBit 2 <;> simp [hb] at h4 <;> simp [h4, hb]
  · intro h1 h2
    simp only [PPU.read_data]
    rw [if_pos h1]
    rw [if_pos (show p.addr_reg.get < (p.increment_vram_addr).chr_rom.length from h2)]
    refine ⟨?_, ?_, ?_⟩
    · simp [increment_buffer]
    · simp [increment_chr]
    · simp [hadv]
  · intro h1 h2
    simp only [PPU.read_data]
    rw [if_neg (show ¬(p.addr_reg.get ≤ 0x1FFF) from by omega)]
    by_cases hc : p.addr_reg.get ≤ 0x2FFF
    · rw [if_pos hc, if_pos (mirror_vram_addr_lt _ _)]
      refine ⟨?_, ?_, ?_⟩
      · simp [increment_buffer]
      · simp [increment_vram, mirror_increment]
      · simp [hadv]
    · rw [if_neg hc, if_pos h2, if_pos (mirror_vram_addr_lt _ _)]
      refine ⟨?_, ?_, ?_⟩
      · simp [increment_buffer]
      · simp [increment_vram, mirror_increment]
      · simp [hadv]
  · intro h1 h2
    simp only [PPU.read_data]
    rw [if_neg (show ¬(p.addr_reg.get ≤ 0x1FFF) from by omega),
      if_neg (show ¬(p.addr_reg.get ≤ 0x2FFF) from by omega),
      if_neg (show ¬(p.addr_reg.get ≤ 0x3EFF) from by omega),
      if_pos h2,
      if_pos (show p.addr_reg.get &&& 0x1F < 32 from
        lt_of_le_of_lt Nat.and_le_right (by norm_num))]
    refine ⟨?_, ?_, ?_⟩
    · simp [increment_palette]
    · simp [increment_buffer]
    · simp [hadv]
  · intro h1 h2
    simp only [PPU.write_to_data_reg]
    rw [if_neg (show ¬(p.addr_reg.get ≤ 0x1FFF) from by omega)]
    by_cases hc : p.addr_reg.get ≤ 0x2FFF
    · rw [if_pos hc, if_pos (mirror_vram_addr_lt _ _)]
      simp only [Option.map_some']
      simp only [PPU.increment_vram_addr]
      exact congrArg some hadv
    · by_cases hc2 : p.addr_reg.get ≤ 0x3EFF
      · rw [if_neg hc, if_pos hc2, if_pos (mirror_vram_addr_lt _ _)]
        simp only [Option.map_some']
        simp only [PPU.increment_vram_addr]
        exact congrArg some hadv
      · by_cases hm : p.addr_reg.get = 0x3F10 ∨ p.addr_reg.get = 0x3F14 ∨
            p.addr_reg.get = 0x3F18 ∨ p.addr_reg.get = 0x3F1C
        · rw [if_neg hc, if_neg hc2, if_pos hm,
            if_pos (show (p.addr_reg.get - 0x10) &&& 0x1F < 32 from
              lt_of_le_of_lt Nat.and_le_right (by norm_num))]
          simp only [Option.map_some']
          simp only [PPU.increment_vram_addr]
          exact congrArg some hadv
        · rw [if_neg hc, if_neg hc2, if_neg hm, if_pos h2,
            if_pos (show p.addr_reg.get &&& 0x1F < 32 from
              lt_of_le_of_lt Nat.and_le_right (by norm_num))]
          simp only [Option.map_some']
          simp only [PPU.increment_vram_addr]
          exact congrArg some hadv

/-- Witness for C10 at a PPU with a one-byte graphics ROM and the
latch at 0x0000: the read returns the (zero) buffer, refreshes the
buffer with the ROM byte 7, and advances the latch by 1. -/
theorem C10_witness :
    (ppuChr.read_data).map Prod.fst = some 0 ∧
    (ppuChr.read_data).map (fun q => q.2.internal_data_buffer) = some 7 ∧
    (ppuChr.read_data).map (fun q => q.2.addr_reg.get) = some 1 := by
  have h := C10_data_port ppuChr 0 (by decide) (by decide)
  have h2 := h.2.1 (by decide) (by decide)
  exact ⟨h2.1, h2.2.1, h2.2.2⟩
